import Mathlib

/-!
Verification development for the lab-value extraction, unit-normalization and
health-scoring engine of `src/app.py`.

The engine is embedded shallowly:

* Python strings are Lean `String`s; pattern matching works on `List Char`
  (`String.data`).  `str.lower()` is modelled for ASCII input
  (`pyLower`), which covers every keyword and label the code matches on.
* Python floats are modelled as exact rationals (`ℚ`).  `round(x, n)` uses
  round-half-to-even (`rndHE`, `pyRound1`, `pyRound2`), CPython's rounding of
  floats, applied to the exact rational value.
* The `re.search` calls of `parse_lab_values` use only patterns of one shape:
  a sequence of literals, optional literals (`[s]?`, `(?:absolute)?`) and
  greedy character-class stars (`\s*`, `[:\s]*`) followed by one capture
  group `([\d\.]+)`.  `matchFrom`/`starTry` implement exactly these
  constructs with Python's greedy, backtracking, leftmost-match semantics
  (`searchCap`).  `\d` and `\s` are modelled at their ASCII meaning, and the
  `re.IGNORECASE` flag is a no-op because `parse_lab_values` lowercases the
  text before searching and every pattern literal is lowercase.
* `find_one`'s post-processing of a captured group (strip commas - impossible
  here, the capture class has no comma -, then `re.search` for
  `[-+]?\d*\.?\d+` and `float(...)`) is `numSearch`; the capture class
  `[\d\.]` cannot produce a sign, but signs are handled anyway for fidelity.
* Python dicts built by `parse_lab_values` are association lists
  (`List (String × Entry)`); the empty dict returned for falsy input is
  `[]`, and `dict.get` is `List.lookup` (`dictNum`, `dictTxt`).
-/

def isWs (c : Char) : Bool :=
  c = ' ' || c = '\t' || c = '\n' || c = '\r' || c = '\x0b' || c = '\x0c'

def colonSpace (c : Char) : Bool :=
  c = ':' || isWs c

def isNumC (c : Char) : Bool :=
  c.isDigit || c = '.'

/-- ASCII model of Python `str.lower()` (all matched labels/keywords are ASCII). -/
def lowerChar (c : Char) : Char :=
  if 'A' ≤ c ∧ c ≤ 'Z' then Char.ofNat (c.toNat + 32) else c

def pyLower (s : String) : List Char :=
  s.data.map lowerChar

/-- Executable prefix test on character lists. -/
def isPrefixB : List Char → List Char → Bool
  | [], _ => true
  | _ :: _, [] => false
  | a :: as, b :: bs => a = b && isPrefixB as bs

/-- Executable substring test: Python's `needle in haystack`. -/
def containsB (nd : List Char) : List Char → Bool
  | [] => isPrefixB nd []
  | c :: cs => isPrefixB nd (c :: cs) || containsB nd cs

/-- One token of the regex shape used by `parse_lab_values`:
a literal, an optional literal, or a greedy star over a character class. -/
inductive RTok where
  | lit : List Char → RTok
  | opt : List Char → RTok
  | star : (Char → Bool) → RTok

mutual

/-- Match the token list at the start of `cs`, then the trailing capture
group `([\d\.]+)` (greedy).  Returns the captured characters.  Greedy
alternatives are tried in Python's order: consume an optional literal before
skipping it, longest star munch first, with full backtracking. -/
def matchFrom : List RTok → List Char → Option (List Char)
  | [], cs =>
      let d := cs.takeWhile isNumC
      if d.isEmpty then none else some d
  | RTok.lit l :: ts, cs =>
      if l.isPrefixOf cs then matchFrom ts (cs.drop l.length) else none
  | RTok.opt l :: ts, cs =>
      if l.isPrefixOf cs then
        match matchFrom ts (cs.drop l.length) with
        | some r => some r
        | none => matchFrom ts cs
      else matchFrom ts cs
  | RTok.star p :: ts, cs => starTry ts cs ((cs.takeWhile p).length)
termination_by ts _ => (ts.length, 0, 0)

/-- Backtracking for a star: try dropping `k`, `k-1`, ..., `0` characters. -/
def starTry : List RTok → List Char → Nat → Option (List Char)
  | ts, cs, 0 => matchFrom ts cs
  | ts, cs, k + 1 =>
      match matchFrom ts (cs.drop (k + 1)) with
      | some r => some r
      | none => starTry ts cs k
termination_by ts _ k => (ts.length, 1, k)

end

/-- `re.search`: leftmost starting position whose match succeeds. -/
def searchCap (toks : List RTok) : List Char → Option (List Char)
  | [] => matchFrom toks []
  | c :: cs =>
      match matchFrom toks (c :: cs) with
      | some r => some r
      | none => searchCap toks cs

def digitsVal (ds : List Char) : Nat :=
  ds.foldl (fun a c => a * 10 + (c.toNat - 48)) 0

/-- Match `[-+]?\d*\.?\d+` at the start of `cs` (greedy) and return the
value of the matched number. -/
def numParseAt (cs : List Char) : Option ℚ :=
  let sgn : ℚ × List Char :=
    match cs with
    | '-' :: r => (-1, r)
    | '+' :: r => (1, r)
    | r => (1, r)
  let ip := sgn.2.takeWhile Char.isDigit
  let rest := sgn.2.drop ip.length
  match rest with
  | '.' :: r2 =>
      let fp := r2.takeWhile Char.isDigit
      if fp.isEmpty then
        if ip.isEmpty then none else some (sgn.1 * (digitsVal ip : ℚ))
      else
        some (sgn.1 * ((digitsVal ip : ℚ) + (digitsVal fp : ℚ) / (10 : ℚ) ^ fp.length))
  | _ => if ip.isEmpty then none else some (sgn.1 * (digitsVal ip : ℚ))

/-- `re.search(r"[-+]?\d*\.?\d+", v)` followed by `float(...)`: leftmost match. -/
def numSearch : List Char → Option ℚ
  | [] => none
  | c :: cs =>
      match numParseAt (c :: cs) with
      | some q => some q
      | none => numSearch cs

/-- `find_one` of `parse_lab_values`: first pattern whose leftmost match has a
captured group containing a parseable number.  (The source iterates groups
1..3, but every pattern has exactly one group, so only group 1 matters.) -/
def find_one (pats : List (List RTok)) (t : List Char) : Option ℚ :=
  match pats with
  | [] => none
  | p :: ps =>
      match searchCap p t with
      | some cap =>
          match numSearch cap with
          | some q => some q
          | none => find_one ps t
      | none => find_one ps t

def hbPats : List (List RTok) :=
  [[RTok.lit "hemoglobin".data, RTok.star colonSpace],
   [RTok.lit "hgb".data, RTok.star colonSpace]]

def wbcPats : List (List RTok) :=
  [[RTok.lit "wbc".data, RTok.star colonSpace],
   [RTok.lit "white blood cell".data, RTok.opt "s".data, RTok.lit ":".data,
    RTok.star colonSpace],
   [RTok.lit "wbc count".data, RTok.star colonSpace]]

def neutAbsPats : List (List RTok) :=
  [[RTok.lit "neutrophil".data, RTok.opt "s".data, RTok.star isWs,
    RTok.opt "absolute".data, RTok.star colonSpace],
   [RTok.lit "neutrophil count".data, RTok.star colonSpace]]

def neutPctPats : List (List RTok) :=
  [[RTok.lit "neutrophil".data, RTok.opt "s".data, RTok.star isWs,
    RTok.lit "%".data, RTok.star isWs, RTok.star colonSpace],
   [RTok.lit "neutrophil".data, RTok.opt "s".data, RTok.star isWs,
    RTok.lit "percent".data, RTok.star colonSpace]]

def pltPats : List (List RTok) :=
  [[RTok.lit "platelet".data, RTok.opt "s".data, RTok.lit ":".data,
    RTok.star colonSpace],
   [RTok.lit "plt".data, RTok.star colonSpace]]

def gluPats : List (List RTok) :=
  [[RTok.lit "glucose".data, RTok.star colonSpace],
   [RTok.lit "fasting glucose".data, RTok.star colonSpace]]

def raw_hb (text : String) : Option ℚ := find_one hbPats (pyLower text)

def raw_wbc (text : String) : Option ℚ := find_one wbcPats (pyLower text)

def raw_neut_abs (text : String) : Option ℚ := find_one neutAbsPats (pyLower text)

def raw_neut_percent (text : String) : Option ℚ := find_one neutPctPats (pyLower text)

def raw_plt (text : String) : Option ℚ := find_one pltPats (pyLower text)

def raw_glu (text : String) : Option ℚ := find_one gluPats (pyLower text)

/-- Round half to even to an integer (CPython's rounding of floats); the
floor is computed as `Int.fdiv num den`, which is the mathematical floor
since denominators are positive. -/
def rndHE (q : ℚ) : ℤ :=
  let f : ℤ := Int.fdiv q.num (q.den : ℤ)
  let r : ℚ := q - (f : ℚ)
  if r < 1 / 2 then f
  else if 1 / 2 < r then f + 1
  else if f % 2 = 0 then f else f + 1

/-- Python `round(x, 1)` on the exact rational value. -/
def pyRound1 (q : ℚ) : ℚ := (rndHE (q * 10) : ℚ) / 10

/-- Python `round(x, 2)` on the exact rational value. -/
def pyRound2 (q : ℚ) : ℚ := (rndHE (q * 100) : ℚ) / 100

def padZeros (s : String) (k : Nat) : String :=
  if s.length < k then String.mk (List.replicate (k - s.length) '0') ++ s else s

/-- Decimal rendering of `m / 10^k` with exactly `k` fractional digits
(`k = 0` renders `m.0`, matching float repr of integral values). -/
def decStr (m : Nat) (k : Nat) : String :=
  toString (m / 10 ^ k) ++ "." ++ padZeros (toString (m % 10 ^ k)) k

/-- Python `f-string` `:.2f` formatting of a (nonnegative in practice) value. -/
def fmt2 (q : ℚ) : String :=
  let n := rndHE (q * 100)
  (if n < 0 then "-" else "") ++ decStr n.natAbs 2

/-- Smallest number of decimal digits (≤ 17) rendering `q` exactly. -/
def decExp (q : ℚ) : Option Nat :=
  (List.range 18).find? (fun k => (q * (10 : ℚ) ^ k).den = 1)

/-- Model of Python float repr inside an f-string, for the values this engine
produces (terminating decimals): shortest decimal form, integral values
rendered with a trailing `.0`. -/
def qRepr (q : ℚ) : String :=
  match decExp q with
  | some k =>
      let n := (q * (10 : ℚ) ^ k).num
      (if n < 0 then "-" else "") ++ decStr n.natAbs k
  | none => toString q.num ++ "/" ++ toString q.den

def wbcConvNote (r : ℚ) : String :=
  "converted from " ++ qRepr r ++ " to " ++ fmt2 (r / 1000) ++ " x10^9/L"

def wbcAssumeNote (r : ℚ) : String :=
  "assumed reported in 10^9/L: " ++ fmt2 r ++ " x10^9/L"

def neutConvNote (r : ℚ) : String :=
  "converted from " ++ qRepr r ++ " to " ++ fmt2 (r / 1000) ++ " x10^9/L"

def neutAssumeNote (r : ℚ) : String :=
  "assumed in 10^9/L: " ++ fmt2 r ++ " x10^9/L"

def calcNote (p w na : ℚ) : String :=
  "calculated from " ++ qRepr p ++ "% of " ++ fmt2 w ++ " -> " ++ fmt2 na ++ " x10^9/L"

/-- Lines 145-151: unit normalization of a raw WBC value with its provenance note. -/
def normWbc (r : ℚ) : ℚ × String :=
  if r > 50 then (r / 1000, wbcConvNote r) else (r, wbcAssumeNote r)

/-- Lines 155-161: unit normalization of a raw absolute-neutrophil value. -/
def normNeut (r : ℚ) : ℚ × String :=
  if r > 50 then (r / 1000, neutConvNote r) else (r, neutAssumeNote r)

def wbc_10e9 (text : String) : Option ℚ :=
  (raw_wbc text).map (fun r => (normWbc r).1)

def wbc_note (text : String) : Option String :=
  (raw_wbc text).map (fun r => (normWbc r).2)

/-- Lines 153-167; the `try/except` around the percent computation cannot
raise on numbers, so the computation is modelled as total. -/
def neut_abs (text : String) : Option ℚ :=
  match raw_neut_abs text with
  | some r => some ((normNeut r).1)
  | none =>
      match raw_neut_percent text, wbc_10e9 text with
      | some p, some w => some (p / 100 * w)
      | _, _ => none

def neut_note (text : String) : Option String :=
  match raw_neut_abs text with
  | some r => some ((normNeut r).2)
  | none =>
      match raw_neut_percent text, wbc_10e9 text with
      | some p, some w => some (calcNote p w (p / 100 * w))
      | _, _ => none

/-- One value of the result dict of `parse_lab_values`. -/
inductive Entry where
  | num : Option ℚ → Entry
  | txt : Option String → Entry
  deriving DecidableEq

/-- The fixed-key result dict built in lines 169-178, as an association list. -/
def mkLabDict (hb wraw w10 : Option ℚ) (wnote : Option String)
    (naraw nabs : Option ℚ) (nnote : Option String)
    (npct plt glu : Option ℚ) : List (String × Entry) :=
  [("hb_g_dl", Entry.num hb), ("wbc_raw", Entry.num wraw),
   ("wbc_10e9_per_L", Entry.num w10), ("wbc_note", Entry.txt wnote),
   ("neutrophil_abs_raw", Entry.num naraw), ("neutrophil_abs", Entry.num nabs),
   ("neut_note", Entry.txt nnote), ("neut_percent_raw", Entry.num npct),
   ("plt", Entry.num plt), ("glucose", Entry.num glu)]

def labResults (text : String) : List (String × Entry) :=
  mkLabDict (raw_hb text) (raw_wbc text) ((wbc_10e9 text).map pyRound2)
    (wbc_note text) (raw_neut_abs text) ((neut_abs text).map pyRound2)
    (neut_note text) (raw_neut_percent text) (raw_plt text) (raw_glu text)

/-- `parse_lab_values`; the guard `if not text` is true exactly for `None`
and the empty string, and then the empty dict is returned. -/
def parse_lab_values : Option String → List (String × Entry)
  | none => []
  | some text => if text = "" then [] else labResults text

/-- `lab_vals.get(k)` restricted to numeric entries. -/
def dictNum (d : List (String × Entry)) (k : String) : Option ℚ :=
  match List.lookup k d with
  | some (Entry.num v) => v
  | _ => none

/-- `lab_vals.get(k)` restricted to note (string) entries. -/
def dictTxt (d : List (String × Entry)) (k : String) : Option String :=
  match List.lookup k d with
  | some (Entry.txt s) => s
  | _ => none

def lowNeutLine : String :=
  "- Low neutrophils: avoid raw or undercooked foods; prioritise thoroughly cooked proteins and strict hygiene."

def sample_menu : List String :=
  ["- Breakfast: cooked oats + cooked banana + pumpkin seeds + pasteurised yogurt",
   "- Lunch: steamed chicken breast + cooked brown rice + steamed carrot + cooked spinach",
   "- Dinner: steamed fish + cooked quinoa/brown rice + steamed greens",
   "- Snacks: hard-boiled egg, small portion cooked fruit compote"]

def rationaleLines : List String :=
  ["- High-quality protein supports tissue repair and immune function.",
   "- Cooked vegetables and grains improve digestibility and reduce infection risk."]

def foodSafetyLines : List String :=
  ["- Avoid raw seafood, raw milk, raw sprouts; prefer pasteurised dairy and well-cooked meats.",
   "- Maintain good hand/food hygiene; refrigerate perishables promptly."]

/-- The advice lines emitted after the flag-dependent part (lines 190-206):
menu header, menu, rationale, food-safety - identical for every input. -/
def fixedTail : List String :=
  ["\nSample 1-day menu (reference):"] ++ sample_menu
    ++ ["\nNutritional rationale:"] ++ rationaleLines
    ++ ["\nFood safety notes:"] ++ foodSafetyLines

/-- `if lab_vals.get(key): lines.append(f"(...)")` - the note is appended,
wrapped in parentheses, exactly when present and non-empty (Python truthiness). -/
def noteLine (s : Option String) : List String :=
  match s with
  | some v => if v = "" then [] else ["(" ++ v ++ ")"]
  | none => []

/-- `generate_dietary_advice_from_labs` (lines 181-207), as the list of lines
that are joined with a newline. -/
def generate_dietary_advice_lines (lab_vals : List (String × Entry)) : List String :=
  ["Dietary Advice (dietitian-level):"]
    ++ noteLine (dictTxt lab_vals "wbc_note")
    ++ noteLine (dictTxt lab_vals "neut_note")
    ++ (match dictNum lab_vals "neutrophil_abs" with
        | some v => if v < 3 / 2 then [lowNeutLine] else []
        | none => [])
    ++ fixedTail

def generate_dietary_advice_from_labs (lab_vals : List (String × Entry)) : String :=
  String.intercalate "\n" (generate_dietary_advice_lines lab_vals)

def lab_positive_keywords : List String := ["normal", "stable", "remission", "improved"]

def lab_negative_keywords : List String :=
  ["metastasis", "high", "low", "elevated", "decreased", "critical", "abnormal", "progression"]

/-- The keyword score of `compute_health_index_smart` before its final clamp
(the source lowercases the text once into `t`; `pyLower report_text` is that
same value written out). -/
def smartRaw (report_text : String) : ℤ :=
  lab_negative_keywords.foldl
    (fun sc n => if containsB n.data (pyLower report_text) then sc - 5 else sc)
    (lab_positive_keywords.foldl
      (fun sc p => if containsB p.data (pyLower report_text) then sc + 5 else sc) 50)

def compute_health_index_smart (report_text : String) : ℤ :=
  max 0 (min 100 (smartRaw report_text))

def imaging_negative_keywords : List String :=
  ["metastasis", "lesion", "tumor growth", "progression"]

def imaging_positive_keywords : List String :=
  ["stable", "no abnormality", "remission", "no evidence of disease"]

def imaging_deductions (texts : List String) : ℤ :=
  texts.foldl (fun d text =>
    let t := pyLower text
    let d1 := if imaging_negative_keywords.any (fun k => containsB k.data t) then d + 10 else d
    if imaging_positive_keywords.any (fun k => containsB k.data t) then d1 - 5 else d1) 0

/-- The `image_score` local of `compute_health_index_with_imaging`; an empty
list models Python's falsy `None`/`[]` imaging argument. -/
def image_score (image_reports_texts : List String) : ℤ :=
  if image_reports_texts = [] then 100
  else max 0 (min 100 (100 - imaging_deductions image_reports_texts))

/-- The `lab_score` local: the keyword score of the report text, or the
50 baseline when the text is falsy (empty). -/
def lab_score (report_texts : String) : ℤ :=
  if report_texts = "" then 50 else compute_health_index_smart report_texts

def compute_health_index_with_imaging (report_texts : String)
    (image_reports_texts : List String) : ℚ :=
  pyRound1 ((lab_score report_texts : ℚ) * (7 / 10)
    + (image_score image_reports_texts : ℚ) * (3 / 10))

inductive Severity where
  | none | mild | moderate | severe
  deriving DecidableEq

/-- Severity bands exactly as the specification words them (<0.5 severe,
<1.0 moderate, <1.5 mild, else none).  The source implements no such bands;
this definition exists only to compare the specification against the code. -/
def spec_neutropenia_severity (v : ℚ) : Severity :=
  if v < 1 / 2 then Severity.severe
  else if v < 1 then Severity.moderate
  else if v < 3 / 2 then Severity.mild
  else Severity.none

/-- The code's only neutropenia test (line 188): guidance iff value < 1.5. -/
def neutLowCheck (v : ℚ) : Bool := v < 3 / 2

theorem foldl_if_add (c : String → Bool) (l : List String) (acc : ℤ) :
    List.foldl (fun sc p => if c p then sc + 5 else sc) acc l
      = acc + 5 * ((l.filter c).length : ℤ) := by
  induction l generalizing acc with
  | nil => simp
  | cons a as ih =>
    cases hc : c a with
    | false => simp [List.foldl_cons, List.filter_cons, hc, ih]
    | true =>
      simp [List.foldl_cons, List.filter_cons, hc, ih]
      ring

theorem foldl_if_sub (c : String → Bool) (l : List String) (acc : ℤ) :
    List.foldl (fun sc p => if c p then sc - 5 else sc) acc l
      = acc - 5 * ((l.filter c).length : ℤ) := by
  induction l generalizing acc with
  | nil => simp
  | cons a as ih =>
    cases hc : c a with
    | false => simp [List.foldl_cons, List.filter_cons, hc, ih]
    | true =>
      simp [List.foldl_cons, List.filter_cons, hc, ih]
      ring

/-- Number of the 4 positive lab keywords present in the lowered text. -/
def posCount (t : String) : ℤ :=
  ((lab_positive_keywords.filter (fun p => containsB p.data (pyLower t))).length : ℤ)

/-- Number of the 8 negative lab keywords present in the lowered text. -/
def negCount (t : String) : ℤ :=
  ((lab_negative_keywords.filter (fun n => containsB n.data (pyLower t))).length : ℤ)

theorem smartRaw_eq (t : String) : smartRaw t = 50 + 5 * posCount t - 5 * negCount t := by
  unfold smartRaw posCount negCount
  rw [foldl_if_add, foldl_if_sub]

theorem posCount_bounds (t : String) : 0 ≤ posCount t ∧ posCount t ≤ 4 := by
  unfold posCount
  have h := List.length_filter_le (fun p => containsB p.data (pyLower t)) lab_positive_keywords
  have hl : lab_positive_keywords.length = 4 := rfl
  omega

theorem negCount_bounds (t : String) : 0 ≤ negCount t ∧ negCount t ≤ 8 := by
  unfold negCount
  have h := List.length_filter_le (fun n => containsB n.data (pyLower t)) lab_negative_keywords
  have hl : lab_negative_keywords.length = 8 := rfl
  omega

theorem smartRaw_bounds (t : String) : 10 ≤ smartRaw t ∧ smartRaw t ≤ 70 := by
  have h1 := posCount_bounds t
  have h2 := negCount_bounds t
  rw [smartRaw_eq]
  omega

theorem smart_eq_smartRaw (t : String) : compute_health_index_smart t = smartRaw t := by
  obtain ⟨h1, h2⟩ := smartRaw_bounds t
  unfold compute_health_index_smart
  rw [min_eq_right (by omega), max_eq_right (by omega)]

theorem lab_score_bounds (t : String) : 10 ≤ lab_score t ∧ lab_score t ≤ 70 := by
  unfold lab_score
  split
  · norm_num
  · rw [smart_eq_smartRaw]
    exact smartRaw_bounds t

theorem image_score_bounds (l : List String) : 0 ≤ image_score l ∧ image_score l ≤ 100 := by
  unfold image_score
  split
  · norm_num
  · exact ⟨le_max_left 0 _, max_le (by norm_num) (min_le_left _ _)⟩

theorem rndHE_intCast (n : ℤ) : rndHE (n : ℚ) = n := by
  unfold rndHE
  rw [Rat.num_intCast, Rat.den_intCast]
  norm_num [Int.fdiv_one]

theorem pyRound1_int_div_ten (n : ℤ) : pyRound1 ((n : ℚ) / 10) = (n : ℚ) / 10 := by
  unfold pyRound1
  rw [div_mul_cancel₀ _ (by norm_num : (10 : ℚ) ≠ 0), rndHE_intCast]

theorem combine_cast (a b : ℤ) :
    (a : ℚ) * (7 / 10) + (b : ℚ) * (3 / 10) = ((7 * a + 3 * b : ℤ) : ℚ) / 10 := by
  push_cast
  ring

theorem chi_eq (t : String) (imgs : List String) :
    compute_health_index_with_imaging t imgs
      = ((7 * lab_score t + 3 * image_score imgs : ℤ) : ℚ) / 10 := by
  unfold compute_health_index_with_imaging
  rw [combine_cast, pyRound1_int_div_ten]

theorem intCastDiv10_le (n : ℤ) (c : ℚ) (h : (n : ℚ) ≤ c * 10) : (n : ℚ) / 10 ≤ c := by
  rw [div_le_iff₀ (by norm_num : (0 : ℚ) < 10)]
  exact h

theorem le_intCastDiv10 (n : ℤ) (c : ℚ) (h : c * 10 ≤ (n : ℚ)) : c ≤ (n : ℚ) / 10 := by
  rw [le_div_iff₀ (by norm_num : (0 : ℚ) < 10)]
  exact h

/-- C3: for every lab text and every list of imaging texts, the combined
health index lies in [0,100]; both sub-scores are themselves in [0,100] and
the composite is exactly `round(lab_score*0.7 + image_score*0.3, 1)`; for the
empty input string with no imaging text the composite equals
0.7*50 + 0.3*100 = 65. -/
theorem C3_health_index_bounds :
    (∀ (t : String) (imgs : List String),
        0 ≤ compute_health_index_with_imaging t imgs
          ∧ compute_health_index_with_imaging t imgs ≤ 100
          ∧ compute_health_index_with_imaging t imgs
              = pyRound1 ((lab_score t : ℚ) * (7 / 10) + (image_score imgs : ℚ) * (3 / 10))
          ∧ 0 ≤ lab_score t ∧ lab_score t ≤ 100
          ∧ 0 ≤ image_score imgs ∧ image_score imgs ≤ 100)
      ∧ compute_health_index_with_imaging "" [] = 65 := by
  constructor
  · intro t imgs
    obtain ⟨hl1, hl2⟩ := lab_score_bounds t
    obtain ⟨hi1, hi2⟩ := image_score_bounds imgs
    have hn1 : (0 : ℤ) ≤ 7 * lab_score t + 3 * image_score imgs := by omega
    have hn2 : 7 * lab_score t + 3 * image_score imgs ≤ 1000 := by omega
    refine ⟨?_, ?_, rfl, by omega, by omega, hi1, hi2⟩
    · rw [chi_eq]
      apply le_intCastDiv10
      rw [zero_mul]
      exact_mod_cast hn1
    · rw [chi_eq]
      apply intCastDiv10_le
      have h : ((7 * lab_score t + 3 * image_score imgs : ℤ) : ℚ) ≤ 1000 := by
        exact_mod_cast hn2
      linarith
  · with_unfolding_all decide

/-- C10: each lab keyword contributes its delta once, by presence: the
unclamped keyword score is 50 + 5*(positive keywords present) - 5*(negative
keywords present) with at most 4 positive and 8 negative keywords, so the lab
sub-score lies in [10,70] and its clamp is the identity; consequently the
combined health index always lies in [7,79]. -/
theorem C10_score_intervals :
    (∀ t : String,
        compute_health_index_smart t = smartRaw t
          ∧ smartRaw t = 50 + 5 * posCount t - 5 * negCount t
          ∧ 0 ≤ posCount t ∧ posCount t ≤ 4
          ∧ 0 ≤ negCount t ∧ negCount t ≤ 8
          ∧ 10 ≤ compute_health_index_smart t ∧ compute_health_index_smart t ≤ 70)
      ∧ ∀ (t : String) (imgs : List String),
          7 ≤ compute_health_index_with_imaging t imgs
            ∧ compute_health_index_with_imaging t imgs ≤ 79 := by
  constructor
  · intro t
    obtain ⟨hp1, hp2⟩ := posCount_bounds t
    obtain ⟨hn1, hn2⟩ := negCount_bounds t
    have hb := smartRaw_bounds t
    have he := smart_eq_smartRaw t
    exact ⟨he, smartRaw_eq t, hp1, hp2, hn1, hn2, by omega, by omega⟩
  · intro t imgs
    obtain ⟨hl1, hl2⟩ := lab_score_bounds t
    obtain ⟨hi1, hi2⟩ := image_score_bounds imgs
    have hn1 : (70 : ℤ) ≤ 7 * lab_score t + 3 * image_score imgs := by omega
    have hn2 : 7 * lab_score t + 3 * image_score imgs ≤ 790 := by omega
    constructor
    · rw [chi_eq]
      apply le_intCastDiv10
      have h : (70 : ℚ) ≤ ((7 * lab_score t + 3 * image_score imgs : ℤ) : ℚ) := by
        exact_mod_cast hn1
      linarith
    · rw [chi_eq]
      apply intCastDiv10_le
      have h : ((7 * lab_score t + 3 * image_score imgs : ℤ) : ℚ) ≤ 790 := by
        exact_mod_cast hn2
      linarith

/-- C9: a `None` or empty-string input makes `parse_lab_values` return the
empty mapping - no analyte keys at all - so every lookup on it misses. -/
theorem C9_empty_mapping :
    parse_lab_values none = [] ∧ parse_lab_values (some "") = []
      ∧ ∀ k : String, List.lookup k (parse_lab_values (some "")) = none := by
  have h : parse_lab_values (some "") = [] := by decide
  exact ⟨rfl, h, fun k => by rw [h]; rfl⟩

theorem sample_menu_sublist_fixedTail : List.Sublist sample_menu fixedTail := by decide

theorem sublist_advice (d : List (String × Entry)) :
    List.Sublist sample_menu (generate_dietary_advice_lines d) := by
  unfold generate_dietary_advice_lines
  exact sample_menu_sublist_fixedTail.trans (List.sublist_append_right _ _)

/-- C8: the dietary advisory of every lab-value mapping contains the sample
menu: the menu header line is present and the non-empty four-line menu is a
sublist of the emitted lines, whatever flags are active. -/
theorem C8_sample_menu_invariant :
    sample_menu ≠ [] ∧ ∀ d : List (String × Entry),
      "\nSample 1-day menu (reference):" ∈ generate_dietary_advice_lines d
        ∧ List.Sublist sample_menu (generate_dietary_advice_lines d) := by
  refine ⟨by decide, fun d => ⟨?_, sublist_advice d⟩⟩
  unfold generate_dietary_advice_lines
  exact List.mem_append_right _ (by decide)

theorem isPrefixB_self_append (nd rest : List Char) : isPrefixB nd (nd ++ rest) = true := by
  induction nd with
  | nil => rfl
  | cons a as ih => simp [isPrefixB, ih]

theorem containsB_self_append (nd rest : List Char) : containsB nd (nd ++ rest) = true := by
  cases nd with
  | nil => cases rest <;> simp [containsB, isPrefixB]
  | cons a as =>
      have h := isPrefixB_self_append (a :: as) rest
      rw [List.cons_append] at h
      simp [containsB, h]

theorem containsB_append_right (nd pre post : List Char) (h : containsB nd post = true) :
    containsB nd (pre ++ post) = true := by
  induction pre with
  | nil => simpa
  | cons a as ih => simp [containsB, ih]

theorem containsB_of_append_eq (nd hay pre post : List Char)
    (h : hay = pre ++ (nd ++ post)) : containsB nd hay = true := by
  subst h
  exact containsB_append_right _ _ _ (containsB_self_append _ _)

theorem normWbc_pos (r : ℚ) (h : 50 < r) : normWbc r = (r / 1000, wbcConvNote r) := by
  unfold normWbc
  rw [if_pos h]

theorem normWbc_neg (r : ℚ) (h : r ≤ 50) : normWbc r = (r, wbcAssumeNote r) := by
  unfold normWbc
  rw [if_neg (not_lt.mpr h)]

theorem normNeut_pos (r : ℚ) (h : 50 < r) : normNeut r = (r / 1000, neutConvNote r) := by
  unfold normNeut
  rw [if_pos h]

theorem normNeut_neg (r : ℚ) (h : r ≤ 50) : normNeut r = (r, neutAssumeNote r) := by
  unfold normNeut
  rw [if_neg (not_lt.mpr h)]

theorem wbcConvNote_contains_branch (r : ℚ) :
    containsB "converted from".data (wbcConvNote r).data = true := by
  unfold wbcConvNote
  apply containsB_of_append_eq _ _ []
    (" ".data ++ ((qRepr r).data ++ (" to ".data ++ ((fmt2 (r / 1000)).data ++ " x10^9/L".data))))
  have e : "converted from ".data = "converted from".data ++ " ".data := by decide
  simp [String.data_append, e, List.append_assoc]

theorem wbcConvNote_contains_value (r : ℚ) :
    containsB (fmt2 (r / 1000)).data (wbcConvNote r).data = true := by
  unfold wbcConvNote
  apply containsB_of_append_eq _ _
    ("converted from ".data ++ ((qRepr r).data ++ " to ".data)) " x10^9/L".data
  simp [String.data_append, List.append_assoc]

theorem neutConvNote_contains_branch (r : ℚ) :
    containsB "converted from".data (neutConvNote r).data = true := by
  unfold neutConvNote
  apply containsB_of_append_eq _ _ []
    (" ".data ++ ((qRepr r).data ++ (" to ".data ++ ((fmt2 (r / 1000)).data ++ " x10^9/L".data))))
  have e : "converted from ".data = "converted from".data ++ " ".data := by decide
  simp [String.data_append, e, List.append_assoc]

theorem neutConvNote_contains_value (r : ℚ) :
    containsB (fmt2 (r / 1000)).data (neutConvNote r).data = true := by
  unfold neutConvNote
  apply containsB_of_append_eq _ _
    ("converted from ".data ++ ((qRepr r).data ++ " to ".data)) " x10^9/L".data
  simp [String.data_append, List.append_assoc]

theorem wbcAssumeNote_contains_branch (r : ℚ) :
    containsB "assumed".data (wbcAssumeNote r).data = true := by
  unfold wbcAssumeNote
  apply containsB_of_append_eq _ _ []
    (" reported in 10^9/L: ".data ++ ((fmt2 r).data ++ " x10^9/L".data))
  have e : "assumed reported in 10^9/L: ".data
      = "assumed".data ++ " reported in 10^9/L: ".data := by decide
  simp [String.data_append, e, List.append_assoc]

theorem wbcAssumeNote_contains_value (r : ℚ) :
    containsB (fmt2 r).data (wbcAssumeNote r).data = true := by
  unfold wbcAssumeNote
  apply containsB_of_append_eq _ _ "assumed reported in 10^9/L: ".data " x10^9/L".data
  simp [String.data_append, List.append_assoc]

theorem neutAssumeNote_contains_branch (r : ℚ) :
    containsB "assumed".data (neutAssumeNote r).data = true := by
  unfold neutAssumeNote
  apply containsB_of_append_eq _ _ []
    (" in 10^9/L: ".data ++ ((fmt2 r).data ++ " x10^9/L".data))
  have e : "assumed in 10^9/L: ".data = "assumed".data ++ " in 10^9/L: ".data := by decide
  simp [String.data_append, e, List.append_assoc]

theorem neutAssumeNote_contains_value (r : ℚ) :
    containsB (fmt2 r).data (neutAssumeNote r).data = true := by
  unfold neutAssumeNote
  apply containsB_of_append_eq _ _ "assumed in 10^9/L: ".data " x10^9/L".data
  simp [String.data_append, List.append_assoc]

/-- C1: for every extracted count-type raw number r (WBC or absolute
neutrophils), the normalized value is r/1000 when r > 50 and r itself when
r ≤ 50; in both branches the attached provenance note is the exact branch
string, mentions the branch taken ("converted from" / "assumed") and the
resulting two-decimal value; normalization leaves an already-normalized
value (≤ 50) unchanged, and the parse pipeline attaches value and note. -/
theorem C1_unit_normalization (r : ℚ) :
    (50 < r →
        (normWbc r).1 = r / 1000 ∧ (normNeut r).1 = r / 1000
          ∧ (normWbc r).2 = wbcConvNote r ∧ (normNeut r).2 = neutConvNote r
          ∧ containsB "converted from".data (normWbc r).2.data = true
          ∧ containsB (fmt2 (r / 1000)).data (normWbc r).2.data = true
          ∧ containsB "converted from".data (normNeut r).2.data = true
          ∧ containsB (fmt2 (r / 1000)).data (normNeut r).2.data = true)
      ∧ (r ≤ 50 →
        (normWbc r).1 = r ∧ (normNeut r).1 = r
          ∧ (normWbc r).2 = wbcAssumeNote r ∧ (normNeut r).2 = neutAssumeNote r
          ∧ containsB "assumed".data (normWbc r).2.data = true
          ∧ containsB (fmt2 r).data (normWbc r).2.data = true
          ∧ containsB "assumed".data (normNeut r).2.data = true
          ∧ containsB (fmt2 r).data (normNeut r).2.data = true
          ∧ (normWbc ((normWbc r).1)).1 = (normWbc r).1
          ∧ (normNeut ((normNeut r).1)).1 = (normNeut r).1)
      ∧ (∀ s : String, raw_wbc s = some r →
          wbc_10e9 s = some ((normWbc r).1) ∧ wbc_note s = some ((normWbc r).2)) := by
  refine ⟨fun h => ?_, fun h => ?_, fun s hs => ?_⟩
  · rw [normWbc_pos r h, normNeut_pos r h]
    exact ⟨rfl, rfl, rfl, rfl, wbcConvNote_contains_branch r, wbcConvNote_contains_value r,
      neutConvNote_contains_branch r, neutConvNote_contains_value r⟩
  · rw [normWbc_neg r h, normNeut_neg r h]
    refine ⟨rfl, rfl, rfl, rfl, wbcAssumeNote_contains_branch r, wbcAssumeNote_contains_value r,
      neutAssumeNote_contains_branch r, neutAssumeNote_contains_value r, ?_, ?_⟩
    · rw [normWbc_neg r h]
    · rw [normNeut_neg r h]
  · unfold wbc_10e9 wbc_note
    rw [hs]
    exact ⟨rfl, rfl⟩

/-- Witness for C1 at the concrete raw values 7800 (> 50) and 21/10 (≤ 50). -/
theorem C1_unit_normalization_witness :
    (normWbc 7800).1 = 7800 / 1000 ∧ (normNeut (21 / 10)).1 = 21 / 10 := by
  constructor
  · exact ((C1_unit_normalization 7800).1 (by decide)).1
  · exact ((C1_unit_normalization (21 / 10)).2.1 (by with_unfolding_all decide)).2.1

theorem dictNum_labResults_neut (s : String) :
    dictNum (labResults s) "neutrophil_abs" = (neut_abs s).map pyRound2 := rfl

/-- C2: the absolute neutrophil count is derived as percent/100 x normalized
WBC exactly when no absolute value was extracted and both inputs are present
(the reported dict entry is that product, rounded to two decimals), and it is
null whenever the percent or the normalized WBC is missing; when an absolute
value was extracted, the value is its normalization, not the derivation. -/
theorem C2_derived_neutrophil :
    (∀ (s : String) (p w : ℚ), raw_neut_abs s = none → raw_neut_percent s = some p →
        wbc_10e9 s = some w →
        neut_abs s = some (p / 100 * w)
          ∧ dictNum (labResults s) "neutrophil_abs" = some (pyRound2 (p / 100 * w)))
      ∧ (∀ s : String, raw_neut_abs s = none → raw_neut_percent s = none →
          neut_abs s = none)
      ∧ (∀ s : String, raw_neut_abs s = none → wbc_10e9 s = none → neut_abs s = none)
      ∧ (∀ (s : String) (r : ℚ), raw_neut_abs s = some r →
          neut_abs s = some ((normNeut r).1))
      ∧ (∀ s : String, neut_abs s = none →
          dictNum (labResults s) "neutrophil_abs" = none) := by
  refine ⟨fun s p w h1 h2 h3 => ?_, fun s h1 h2 => ?_, fun s h1 h2 => ?_,
    fun s r h1 => ?_, fun s h => ?_⟩
  · have he : neut_abs s = some (p / 100 * w) := by
      unfold neut_abs
      rw [h1, h2, h3]
    refine ⟨he, ?_⟩
    rw [dictNum_labResults_neut, he]
    rfl
  · unfold neut_abs
    rw [h1, h2]
  · unfold neut_abs
    rw [h1, h2]
    rcases raw_neut_percent s with _ | p <;> rfl
  · unfold neut_abs
    rw [h1]
  · rw [dictNum_labResults_neut, h]
    rfl

/-- Witness for C2 on a text where no absolute count matches but a percent
and a WBC do: the derived value is 40/100 x 2.1. -/
theorem C2_derived_neutrophil_witness :
    raw_neut_abs "neutrophil percent: 40, wbc: 2.1" = none
      ∧ neut_abs "neutrophil percent: 40, wbc: 2.1" = some (40 / 100 * (21 / 10)) := by
  refine ⟨by with_unfolding_all decide, ?_⟩
  exact (C2_derived_neutrophil.1 "neutrophil percent: 40, wbc: 2.1" 40 (21 / 10)
    (by with_unfolding_all decide) (by with_unfolding_all decide)
    (by with_unfolding_all decide)).1

theorem noteLine_not_lowNeut (s : Option String) : lowNeutLine ∉ noteLine s := by
  intro hm
  match s with
  | none => simp [noteLine] at hm
  | some v =>
      unfold noteLine at hm
      have hm' : lowNeutLine ∈ (if v = "" then [] else ["(" ++ v ++ ")"]) := hm
      by_cases hv : v = ""
      · rw [if_pos hv] at hm'
        simp at hm'
      · rw [if_neg hv] at hm'
        simp only [List.mem_singleton] at hm'
        have hm := hm'
        have hd := congrArg String.data hm
        rw [String.data_append, String.data_append] at hd
        have hh : some '-' = some '(' := by
          have hL : lowNeutLine.data.head? = some '-' := by decide
          rw [← hL, hd, show ("(".data : List Char) = ['('] from by decide]
          rfl
        simp at hh

theorem lowNeut_mem_iff (d : List (String × Entry)) (v : ℚ)
    (h : dictNum d "neutrophil_abs" = some v) :
    (lowNeutLine ∈ generate_dietary_advice_lines d) ↔ v < 3 / 2 := by
  unfold generate_dietary_advice_lines
  rw [h]
  constructor
  · intro hm
    rcases List.mem_append.mp hm with hm | hm
    · rcases List.mem_append.mp hm with hm | hm
      · rcases List.mem_append.mp hm with hm | hm
        · rcases List.mem_append.mp hm with hm | hm
          · exact absurd hm (by decide)
          · exact absurd hm (noteLine_not_lowNeut _)
        · exact absurd hm (noteLine_not_lowNeut _)
      · by_cases hv : v < 3 / 2
        · exact hv
        · have hm' : lowNeutLine ∈ (if v < 3 / 2 then [lowNeutLine] else []) := hm
          rw [if_neg hv] at hm'
          simp at hm'
    · exact absurd hm (by decide)
  · intro hv
    refine List.mem_append.mpr (Or.inl (List.mem_append.mpr (Or.inr ?_)))
    show lowNeutLine ∈ (if v < 3 / 2 then [lowNeutLine] else [])
    rw [if_pos hv]
    exact List.mem_singleton_self _

/-- C4 counterexample: for the empty input the combined health index the
engine computes is 65 (= 0.7x50 + 0.3x100), not the claimed 50. -/
theorem C4_empty_input_counterexample :
    compute_health_index_with_imaging "" [] = 65
      ∧ compute_health_index_with_imaging "" [] ≠ 50 := by
  exact ⟨by with_unfolding_all decide, by with_unfolding_all decide⟩

/-- C4 amended: the empty input raises no error and yields the empty lab
mapping, the generic advisory (no flag-dependent lines), a neutral lab
sub-score of 50, and a combined health index of 65. -/
theorem C4_empty_input_amended :
    parse_lab_values (some "") = []
      ∧ generate_dietary_advice_lines (parse_lab_values (some ""))
          = ["Dietary Advice (dietitian-level):"] ++ fixedTail
      ∧ lowNeutLine ∉ generate_dietary_advice_lines (parse_lab_values (some ""))
      ∧ lab_score "" = 50
      ∧ compute_health_index_with_imaging "" [] = 65 := by
  refine ⟨by decide, by decide, by decide, by decide, by with_unfolding_all decide⟩

set_option maxRecDepth 40000 in
/-- C5: on the input "Hemoglobin: 9 g/dL, WBC: 2.1, Neutrophil 40%" the code
extracts hb = 9 and WBC = 2.1 as the claim says, but the absolute-neutrophil
regex captures the 40 of "Neutrophil 40%" as a direct absolute count: the
percent field stays empty, the reported absolute count is 40 (not
0.4x2.1 = 0.84 = 21/25), and no low-neutrophil guidance is emitted (the
spec-worded bands would call 0.84 "moderate", and 40 "none"). -/
theorem C5_scenario_eval :
    dictNum (parse_lab_values (some "Hemoglobin: 9 g/dL, WBC: 2.1, Neutrophil 40%")) "hb_g_dl"
        = some 9
      ∧ dictNum (parse_lab_values (some "Hemoglobin: 9 g/dL, WBC: 2.1, Neutrophil 40%"))
          "wbc_10e9_per_L" = some (21 / 10)
      ∧ dictNum (parse_lab_values (some "Hemoglobin: 9 g/dL, WBC: 2.1, Neutrophil 40%"))
          "neutrophil_abs_raw" = some 40
      ∧ dictNum (parse_lab_values (some "Hemoglobin: 9 g/dL, WBC: 2.1, Neutrophil 40%"))
          "neutrophil_abs" = some 40
      ∧ dictNum (parse_lab_values (some "Hemoglobin: 9 g/dL, WBC: 2.1, Neutrophil 40%"))
          "neut_percent_raw" = none
      ∧ dictNum (parse_lab_values (some "Hemoglobin: 9 g/dL, WBC: 2.1, Neutrophil 40%"))
          "neutrophil_abs" ≠ some (21 / 25)
      ∧ lowNeutLine ∉ generate_dietary_advice_lines
          (parse_lab_values (some "Hemoglobin: 9 g/dL, WBC: 2.1, Neutrophil 40%"))
      ∧ spec_neutropenia_severity (21 / 25) = Severity.moderate
      ∧ spec_neutropenia_severity 40 = Severity.none := by
  refine ⟨by with_unfolding_all decide, by with_unfolding_all decide,
    by with_unfolding_all decide, by with_unfolding_all decide,
    by with_unfolding_all decide, by with_unfolding_all decide,
    by with_unfolding_all decide, by with_unfolding_all decide,
    by with_unfolding_all decide⟩

/-- C6 counterexample: the spec-worded bands put 0.3 in "severe" and 1.2 in
"mild", but the code produces identical dietary guidance for both values -
it implements no severity bands. -/
theorem C6_bands_counterexample :
    spec_neutropenia_severity (3 / 10) = Severity.severe
      ∧ spec_neutropenia_severity (6 / 5) = Severity.mild
      ∧ Severity.severe ≠ Severity.mild
      ∧ generate_dietary_advice_lines
            (mkLabDict none none none none none (some (3 / 10)) none none none none)
          = generate_dietary_advice_lines
            (mkLabDict none none none none none (some (6 / 5)) none none none none) := by
  refine ⟨by with_unfolding_all decide, by with_unfolding_all decide, by decide,
    by with_unfolding_all decide⟩

/-- C6 amended: the code's neutropenia handling is the single cut-point
< 1.5: the low-neutrophil guidance line is emitted iff an absolute value is
present and below 1.5, and this binary classification is monotone -
decreasing the value never removes the flag. -/
theorem C6_threshold_amended :
    (∀ (d : List (String × Entry)) (v : ℚ), dictNum d "neutrophil_abs" = some v →
        ((lowNeutLine ∈ generate_dietary_advice_lines d) ↔ v < 3 / 2))
      ∧ (∀ v : ℚ, neutLowCheck v = true ↔ v < 3 / 2)
      ∧ (∀ a b : ℚ, a ≤ b → neutLowCheck b = true → neutLowCheck a = true) := by
  refine ⟨fun d v h => lowNeut_mem_iff d v h, fun v => ?_, fun a b hab hb => ?_⟩
  · simp [neutLowCheck]
  · have hb' : b < 3 / 2 := by simpa [neutLowCheck] using hb
    have ha : a < 3 / 2 := lt_of_le_of_lt hab hb'
    simpa [neutLowCheck]

/-- Witness for C6 amended at value 1 (below the cut-point, via 1 ≤ 7/5). -/
theorem C6_threshold_amended_witness :
    lowNeutLine ∈ generate_dietary_advice_lines
        (mkLabDict none none none none none (some 1) none none none none)
      ∧ neutLowCheck 1 = true := by
  constructor
  · exact (C6_threshold_amended.1
      (mkLabDict none none none none none (some 1) none none none none) 1 rfl).mpr
      (by with_unfolding_all decide)
  · exact C6_threshold_amended.2.2 1 (7 / 5) (by with_unfolding_all decide)
      (by with_unfolding_all decide)

set_option maxRecDepth 40000 in
/-- C7 counterexample: "Hemoglobin: 9" is extracted (9 < 12), yet the
dietary advisory is exactly the generic one - no anemia flag exists and no
iron / vitamin-C guidance appears anywhere in the output. -/
theorem C7_anemia_counterexample :
    dictNum (parse_lab_values (some "Hemoglobin: 9")) "hb_g_dl" = some 9
      ∧ ((9 : ℚ) < 12)
      ∧ generate_dietary_advice_lines (parse_lab_values (some "Hemoglobin: 9"))
          = generate_dietary_advice_lines (parse_lab_values none)
      ∧ containsB "iron".data
          ((generate_dietary_advice_from_labs
            (parse_lab_values (some "Hemoglobin: 9"))).data.map lowerChar) = false
      ∧ containsB "vitamin".data
          ((generate_dietary_advice_from_labs
            (parse_lab_values (some "Hemoglobin: 9"))).data.map lowerChar) = false := by
  refine ⟨by with_unfolding_all decide, by decide, by with_unfolding_all decide,
    by with_unfolding_all decide, by with_unfolding_all decide⟩

/-- C7 amended: a hemoglobin value below 12 is extracted into the panel but
raises no flag: the dietary advisory ignores the hemoglobin entry entirely
(changing it changes nothing), and for an input where only hemoglobin is
extracted the advisory is the generic one. -/
theorem C7_anemia_amended :
    (∀ (hb hb' wraw w10 : Option ℚ) (wnote : Option String) (naraw nabs : Option ℚ)
        (nnote : Option String) (npct p g : Option ℚ),
        generate_dietary_advice_lines (mkLabDict hb wraw w10 wnote naraw nabs nnote npct p g)
          = generate_dietary_advice_lines (mkLabDict hb' wraw w10 wnote naraw nabs nnote npct p g))
      ∧ dictNum (parse_lab_values (some "Hemoglobin: 9")) "hb_g_dl" = some 9
      ∧ generate_dietary_advice_lines (parse_lab_values (some "Hemoglobin: 9"))
          = ["Dietary Advice (dietitian-level):"] ++ fixedTail := by
  refine ⟨fun hb hb' wraw w10 wnote naraw nabs nnote npct p g => rfl,
    by with_unfolding_all decide, by with_unfolding_all decide⟩
